import Mathlib

/-!
Verification of the image-compression batch utility (`image_comp.py`).

The development shallowly embeds the `ImageCompressor` class:

* filenames are `List Char`; `str.lower` is modelled ASCII-wise by
  `Char.toLower`;
* `pathlib.Path(name).suffix` is modelled by `pySuffix` (index of the last
  dot, kept only when it is neither the first nor the last character);
* the external codec library (PIL) and the filesystem are modelled by an
  environment `Env` recording, for one candidate file, the original bytes
  and the outcome of each fallible call inside the `try` block of
  `compress_image` (`os.path.getsize`, `Image.open`, the mode-flattening
  `paste`, `img.save`, `os.path.getsize` on the temporary, `shutil.move`);
  a Python exception at a step is modelled by the corresponding flag being
  `false` / the encoder result being `none`;
* byte contents are `List Nat`, so `os.path.getsize` is `List.length`;
* Python `int` statistics are `Nat`; the float division of the reporting
  code is modelled over `ℚ`, with `ZeroDivisionError` made explicit as
  `Option.none`; the float arithmetic of `format_size` (sizes repeatedly
  divided by 1024) is modelled exactly as a fraction `num / den` of
  naturals, and the `"{x:.2f}"` float format as round-half-to-even at two
  decimal places.
-/

namespace ImageComp

/-- `str.lower()` on a filename, restricted to ASCII (all extensions the
program compares against are ASCII). -/
def lowerL (cs : List Char) : List Char := cs.map Char.toLower

/-- Index of the last occurrence of a dot, i.e. Python `name.rfind(".")`
returning `none` instead of `-1`. -/
def rfindDot : List Char → Option Nat
  | [] => none
  | c :: cs =>
    match rfindDot cs with
    | some i => some (i + 1)
    | none => if c = '.' then some 0 else none

/-- `pathlib.Path(name).suffix` for a file name (no directory separators):
`i = name.rfind "."`, and the suffix is `name[i:]` when `0 < i < len name - 1`,
else the empty string. -/
def pySuffix (name : List Char) : List Char :=
  match rfindDot name with
  | none => []
  | some i => if 0 < i ∧ i < name.length - 1 then name.drop i else []

/-- `ImageCompressor.get_extension` (image_comp.py lines 28-36): lowercase the
name; a name ending in `.jpg.avif`/`.jpg.webp` keeps its last 9 characters,
one ending in `.png.webp`/`.png.avif` its last 8, anything else its
`Path.suffix`. -/
def get_extension (filename : List Char) : List Char :=
  let name := lowerL filename
  if (".jpg.avif".toList.isSuffixOf name || ".jpg.webp".toList.isSuffixOf name) then
    name.drop (name.length - 9)
  else if (".png.webp".toList.isSuffixOf name || ".png.avif".toList.isSuffixOf name) then
    name.drop (name.length - 8)
  else
    pySuffix name

/-- `self.supported_formats` (image_comp.py line 12). -/
def supported_formats : List (List Char) :=
  [".jpg".toList, ".jpeg".toList, ".png".toList, ".webp".toList, ".avif".toList]

/-- `ImageCompressor.is_image` (image_comp.py lines 38-41): membership of the
logical extension in `supported_formats`. -/
def is_image (filename : List Char) : Bool :=
  decide (get_extension filename ∈ supported_formats)

/-- `self.quality_mapping` (image_comp.py lines 13-19). -/
def quality_mapping : List (List Char × Nat) :=
  [(".jpg".toList, 85), (".jpeg".toList, 85), (".png".toList, 95),
   (".webp".toList, 85), (".avif".toList, 80)]

/-- `self.quality_mapping.get(ext, 85)` (image_comp.py line 59). -/
def quality_for (ext : List Char) : Nat :=
  ((quality_mapping.lookup ext).getD 85)

/-- The PIL output format chosen by the `if/elif` chain of `compress_image`
(image_comp.py lines 64-73); `none` is the final `else: return False`. -/
inductive Format where
  | JPEG
  | PNG
  | WEBP
  | AVIF
deriving DecidableEq, Repr

/-- Encoder selection of `compress_image` (image_comp.py lines 64-73). -/
def encoder_choice (ext : List Char) : Option Format :=
  if ext = ".jpg".toList ∨ ext = ".jpeg".toList then some .JPEG
  else if ext = ".png".toList then some .PNG
  else if ext = ".webp".toList then some .WEBP
  else if ext = ".jpg.avif".toList ∨ ext = ".png.avif".toList then some .AVIF
  else none

/-- PIL colour mode of the decoded image; only membership in
`{RGBA, LA, P}` matters to the program (image_comp.py line 53). -/
inductive PILMode where
  | RGB
  | RGBA
  | LA
  | P
  | other
deriving DecidableEq, Repr

/-- Whether the flattening branch (image_comp.py lines 53-56) runs. -/
def needs_flatten (m : PILMode) : Bool :=
  m = PILMode.RGBA ∨ m = PILMode.LA ∨ m = PILMode.P

/-- Environment for one call of `compress_image`: the file's bytes and the
outcome of each fallible external call inside the `try` block.  A `false`
flag (or `none` encoder output) models that call raising an exception.
The two cleanup `os.remove` calls and the `os.path.getsize` calls made by
`process_folder` itself (lines 110 and 116, on a file the scan just listed)
are modelled as succeeding. -/
structure Env where
  /-- bytes of the original file; `os.path.getsize` is its length -/
  original : List Nat
  /-- `os.path.getsize(image_path)` (line 47) does not raise -/
  statOk : Bool
  /-- `Image.open` (line 50) does not raise -/
  openOk : Bool
  /-- colour mode of the decoded image (line 53) -/
  mode : PILMode
  /-- the flattening `paste` (lines 54-56), when taken, does not raise -/
  convertOk : Bool
  /-- `img.save(temp_path, ...)` (lines 65-71): bytes written to the
  temporary file, or `none` when the encoder raises -/
  encodeResult : Option (List Nat)
  /-- `os.path.getsize(temp_path)` (line 76) does not raise -/
  statTmpOk : Bool
  /-- `shutil.move(temp_path, image_path)` (line 79) does not raise -/
  moveOk : Bool
deriving DecidableEq, Repr

/-- Observable result of one `compress_image` call: the returned boolean,
whether an exception was raised (and hence the `except` branch printed an
error line naming the file), the final bytes of the file, whether a
temporary file is left behind, and the amount added to
`self.stats["compressed_size"]`. -/
structure Outcome where
  result : Bool
  raised : Bool
  errorPrinted : Bool
  file : List Nat
  tempExists : Bool
  addedCompressed : Nat
deriving DecidableEq, Repr

/-- Outcome of the `except` handler (image_comp.py lines 87-91): error line
printed, temporary file removed if present, original untouched, `False`. -/
def except_outcome (env : Env) : Outcome :=
  { result := false, raised := true, errorPrinted := true,
    file := env.original, tempExists := false, addedCompressed := 0 }

/-- Outcome of the unsupported-extension `else: return False`
(image_comp.py lines 72-73): no exception, nothing printed by
`compress_image`, no temporary file was ever written. -/
def skip_outcome (env : Env) : Outcome :=
  { result := false, raised := false, errorPrinted := false,
    file := env.original, tempExists := false, addedCompressed := 0 }

/-- `ImageCompressor.compress_image` (image_comp.py lines 43-91) over the
environment `env` for the file named `name`. -/
def compress_image (name : List Char) (env : Env) : Outcome :=
  if env.statOk = false then except_outcome env
  else
    let original_size := env.original.length
    if env.openOk = false then except_outcome env
    else if needs_flatten env.mode && !env.convertOk then except_outcome env
    else
      let ext := get_extension name
      let _quality := quality_for ext
      match encoder_choice ext with
      | none => skip_outcome env
      | some _fmt =>
        match env.encodeResult with
        | none => except_outcome env
        | some tmp =>
          if env.statTmpOk = false then except_outcome env
          else
            let compressed_size := tmp.length
            if compressed_size < original_size then
              if env.moveOk = false then except_outcome env
              else
                { result := true, raised := false, errorPrinted := false,
                  file := tmp, tempExists := false,
                  addedCompressed := compressed_size }
            else
              { result := true, raised := false, errorPrinted := false,
                file := env.original, tempExists := false,
                addedCompressed := original_size }

/-- `self.stats` (image_comp.py lines 20-26). -/
structure Stats where
  total_files : Nat
  compressed : Nat
  failed : Nat
  original_size : Nat
  compressed_size : Nat
deriving DecidableEq, Repr

/-- The statistics dictionary as initialised in `__init__`. -/
def init_stats : Stats :=
  { total_files := 0, compressed := 0, failed := 0,
    original_size := 0, compressed_size := 0 }

/-- One iteration of the loop of `process_folder`
(image_comp.py lines 109-122): accumulate the original size, run
`compress_image`, and bump `compressed` or `failed`. -/
def process_file_step (s : Stats) (f : List Char × Env) : Stats :=
  let original_size := f.2.original.length
  let s1 : Stats := { s with original_size := s.original_size + original_size }
  let o := compress_image f.1 f.2
  if o.result then
    { s1 with compressed := s1.compressed + 1,
              compressed_size := s1.compressed_size + o.addedCompressed }
  else
    { s1 with failed := s1.failed + 1 }

/-- The filesystem seen by one run of `process_folder`: whether
`self.folder_path.exists()`, and the regular files below it (in `rglob`
order), each with its per-file environment. -/
structure Folder where
  path_exists : Bool
  files : List (List Char × Env)
deriving Repr

/-- Which whole-run precondition message `process_folder` printed before
returning `False`: the missing-directory message of line 96 or the
no-images message of line 103. -/
inductive AbortMsg where
  | dirMissing
  | noImages
deriving DecidableEq, Repr

/-- Result of `process_folder`: the returned boolean, the precondition
message printed when it aborted, the final statistics, and the final bytes
of every file of the tree. -/
structure RunResult where
  returned : Bool
  abort : Option AbortMsg
  stats : Stats
  disk : List (List Char × List Nat)
deriving Repr

/-- The tree unchanged: every file keeps its original bytes. -/
def untouched_disk (fo : Folder) : List (List Char × List Nat) :=
  fo.files.map fun f => (f.1, f.2.original)

/-- `ImageCompressor.process_folder` (image_comp.py lines 93-124): abort with
`False` when the root is missing or no candidate is found, otherwise fold the
per-file step over the candidates and return `True`. -/
def process_folder (fo : Folder) : RunResult :=
  if fo.path_exists = false then
    { returned := false, abort := some AbortMsg.dirMissing,
      stats := init_stats, disk := untouched_disk fo }
  else
    let image_files := fo.files.filter fun f => is_image f.1
    if image_files = [] then
      { returned := false, abort := some AbortMsg.noImages,
        stats := init_stats, disk := untouched_disk fo }
    else
      { returned := true, abort := none,
        stats := image_files.foldl process_file_step
          { init_stats with total_files := image_files.length },
        disk := fo.files.map fun f =>
          if is_image f.1 then (f.1, (compress_image f.1 f.2).file)
          else (f.1, f.2.original) }

/-- Exit status of the script (image_comp.py lines 157-168): the
`__main__` block calls `process_folder`, prints a closing message chosen by
the returned boolean, and falls off the end without `sys.exit`, so the
process exits 0 on every input. -/
def script_exit_code (fo : Folder) : Nat :=
  let _ := process_folder fo
  0

/-- The per-file report computation `(1 - new_size / original_size) * 100`
(image_comp.py line 117).  Python `int / int` is float division and raises
`ZeroDivisionError` on a zero denominator; the division is modelled over `ℚ`
and the unguarded raise as `none`. -/
def reduction_percent (new_size original_size : Nat) : Option ℚ :=
  if original_size = 0 then none
  else some ((1 - (new_size : ℚ) / (original_size : ℚ)) * 100)

/-- Decimal digits of a natural number, most significant first; the first
argument is fuel (any bound above the digit count, supplied as `n + 1`). -/
def nat_digits : Nat → Nat → List Char
  | 0, _ => []
  | fuel + 1, n =>
    if n < 10 then [Nat.digitChar n]
    else nat_digits fuel (n / 10) ++ [Nat.digitChar (n % 10)]

/-- Decimal rendering of a natural number. -/
def nat_repr (n : Nat) : List Char := nat_digits (n + 1) n

/-- Round `num / den` (with `den > 0`) half to even, as Python float
formatting does. -/
def round_half_even (num den : Nat) : Nat :=
  let q := num / den
  let r := num % den
  if 2 * r < den then q
  else if den < 2 * r then q + 1
  else if q % 2 = 0 then q else q + 1

/-- Python `f"{x:.2f}"` for a nonnegative rational `num / den`: round
`100 * x` half to even and print with two digits after the point. -/
def format_two_dec (num den : Nat) : List Char :=
  let n := round_half_even (num * 100) den
  nat_repr (n / 100) ++ ['.'] ++
    (if n % 100 < 10 then ['0'] else []) ++ nat_repr (n % 100)

/-- The loop of `format_size` (image_comp.py lines 150-153): the running
float value `size_bytes`, repeatedly divided by 1024, is carried exactly as
the fraction `num / den`; the unit list is `["B", "KB", "MB", "GB"]` and
the fall-through return formats in `TB`. -/
def format_size_loop : List (List Char) → Nat → Nat → List Char
  | [], num, den => format_two_dec num den ++ " TB".toList
  | u :: us, num, den =>
    if num < 1024 * den then format_two_dec num den ++ [' '] ++ u
    else format_size_loop us num (den * 1024)

/-- `ImageCompressor.format_size` (image_comp.py lines 147-154) on a byte
count. -/
def format_size (size_bytes : Nat) : List Char :=
  format_size_loop ["B".toList, "KB".toList, "MB".toList, "GB".toList] size_bytes 1

/-! Helper lemmas on suffixes and the classification functions. -/

theorem suffix_drop (s l : List Char) (h : s.isSuffixOf l = true) :
    l.drop (l.length - s.length) = s := by
  obtain ⟨t, rfl⟩ := List.isSuffixOf_iff_suffix.mp h
  have hlen : (t ++ s).length - s.length = t.length := by simp
  rw [hlen, List.drop_left]

theorem suffix_of_suffix_le (s₁ s₂ l : List Char) (h₁ : s₁ <:+ l) (h₂ : s₂ <:+ l)
    (hle : s₁.length ≤ s₂.length) : s₁ <:+ s₂ := by
  obtain ⟨t₁, rfl⟩ := h₁
  obtain ⟨t₂, ht₂⟩ := h₂
  have hlen : t₂.length + s₂.length = t₁.length + s₁.length := by
    rw [← List.length_append, ht₂, List.length_append]
  have hs₂ : s₂ = (t₁ ++ s₁).drop t₂.length := by
    rw [← ht₂, List.drop_left]
  have key : s₂.drop (t₁.length - t₂.length) = s₁ := by
    rw [hs₂, List.drop_drop]
    have harith : t₂.length + (t₁.length - t₂.length) = t₁.length := by omega
    rw [harith, List.drop_left]
  exact key ▸ List.drop_suffix _ s₂

theorem isSuffixOf_trans_le (s₁ s₂ l : List Char) (h₁ : s₁.isSuffixOf l = true)
    (h₂ : s₂.isSuffixOf l = true) (hle : s₁.length ≤ s₂.length) :
    s₁.isSuffixOf s₂ = true :=
  List.isSuffixOf_iff_suffix.mpr
    (suffix_of_suffix_le s₁ s₂ l (List.isSuffixOf_iff_suffix.mp h₁)
      (List.isSuffixOf_iff_suffix.mp h₂) hle)

theorem suffix_clash (s₁ s₂ l : List Char) (hle : s₁.length ≤ s₂.length)
    (hbad : s₁.isSuffixOf s₂ = false) (h₁ : s₁.isSuffixOf l = true) :
    s₂.isSuffixOf l = false := by
  cases hc : s₂.isSuffixOf l with
  | false => rfl
  | true =>
    have htr := isSuffixOf_trans_le s₁ s₂ l h₁ hc hle
    rw [htr] at hbad
    exact Bool.noConfusion hbad

theorem suffix_append_cancel (x y s : List Char)
    (h : (x ++ s).isSuffixOf (y ++ s) = true) : x.isSuffixOf y = true := by
  apply List.isSuffixOf_iff_suffix.mpr
  obtain ⟨t, ht⟩ := List.isSuffixOf_iff_suffix.mp h
  refine ⟨t, ?_⟩
  have hassoc : (t ++ x) ++ s = y ++ s := by rw [List.append_assoc]; exact ht
  exact List.append_cancel_right hassoc

theorem rfindDot_eq_none (l : List Char) (h : '.' ∉ l) : rfindDot l = none := by
  induction l with
  | nil => rfl
  | cons c cs ih =>
    have hc : ¬ c = '.' := fun hceq => h (hceq ▸ List.mem_cons_self c cs)
    have hcs : '.' ∉ cs := fun hm => h (List.mem_cons_of_mem c hm)
    simp [rfindDot, ih hcs, hc]

theorem rfindDot_append (t r : List Char) (h : '.' ∉ r) :
    rfindDot (t ++ '.' :: r) = some t.length := by
  induction t with
  | nil => simp [rfindDot, rfindDot_eq_none r h]
  | cons c cs ih => simp [rfindDot, ih]

theorem pySuffix_append (t r : List Char) (ht : t ≠ []) (hr : r ≠ []) (h : '.' ∉ r) :
    pySuffix (t ++ '.' :: r) = '.' :: r := by
  have hfind := rfindDot_append t r h
  have hcond : 0 < t.length ∧ t.length < (t ++ '.' :: r).length - 1 := by
    constructor
    · exact List.length_pos.mpr ht
    · have hrlen : 0 < r.length := List.length_pos.mpr hr
      simp only [List.length_append, List.length_cons]
      omega
  unfold pySuffix
  rw [hfind]
  show (if 0 < t.length ∧ t.length < (t ++ '.' :: r).length - 1 then
      (t ++ '.' :: r).drop t.length else []) = '.' :: r
  rw [if_pos hcond]
  exact List.drop_left t ('.' :: r)

theorem get_extension_of_sfx_jpg_avif (name : List Char)
    (h : (".jpg.avif".toList).isSuffixOf (lowerL name) = true) :
    get_extension name = ".jpg.avif".toList := by
  have h9 : (".jpg.avif".toList).length = 9 := by decide
  unfold get_extension
  simp only [h, Bool.true_or, if_true]
  rw [← h9]
  exact suffix_drop _ _ h

theorem get_extension_of_sfx_jpg_webp (name : List Char)
    (h : (".jpg.webp".toList).isSuffixOf (lowerL name) = true) :
    get_extension name = ".jpg.webp".toList := by
  have h9 : (".jpg.webp".toList).length = 9 := by decide
  unfold get_extension
  simp only [h, Bool.or_true, if_true]
  rw [← h9]
  exact suffix_drop _ _ h

theorem get_extension_of_sfx_png_webp (name : List Char)
    (h : (".png.webp".toList).isSuffixOf (lowerL name) = true) :
    get_extension name = "png.webp".toList := by
  have hja : (".jpg.avif".toList).isSuffixOf (lowerL name) = false :=
    suffix_clash (".png.webp".toList) (".jpg.avif".toList) _ (by decide) (by decide) h
  have hjw : (".jpg.webp".toList).isSuffixOf (lowerL name) = false :=
    suffix_clash (".png.webp".toList) (".jpg.webp".toList) _ (by decide) (by decide) h
  have hsub : ("png.webp".toList) <:+ (".png.webp".toList) := by decide
  have hsfx : ("png.webp".toList).isSuffixOf (lowerL name) = true :=
    List.isSuffixOf_iff_suffix.mpr (hsub.trans (List.isSuffixOf_iff_suffix.mp h))
  have h8 : ("png.webp".toList).length = 8 := by decide
  unfold get_extension
  simp only [hja, hjw, Bool.or_self, if_false, h, Bool.true_or, if_true]
  rw [← h8]
  exact suffix_drop _ _ hsfx

theorem get_extension_of_sfx_png_avif (name : List Char)
    (h : (".png.avif".toList).isSuffixOf (lowerL name) = true) :
    get_extension name = "png.avif".toList := by
  have hja : (".jpg.avif".toList).isSuffixOf (lowerL name) = false :=
    suffix_clash (".png.avif".toList) (".jpg.avif".toList) _ (by decide) (by decide) h
  have hjw : (".jpg.webp".toList).isSuffixOf (lowerL name) = false :=
    suffix_clash (".png.avif".toList) (".jpg.webp".toList) _ (by decide) (by decide) h
  have hsub : ("png.avif".toList) <:+ (".png.avif".toList) := by decide
  have hsfx : ("png.avif".toList).isSuffixOf (lowerL name) = true :=
    List.isSuffixOf_iff_suffix.mpr (hsub.trans (List.isSuffixOf_iff_suffix.mp h))
  have h8 : ("png.avif".toList).length = 8 := by decide
  unfold get_extension
  simp only [hja, hjw, Bool.or_self, if_false, h, Bool.or_true, if_true]
  rw [← h8]
  exact suffix_drop _ _ hsfx

theorem compress_image_cases (name : List Char) (env : Env) :
    compress_image name env = except_outcome env ∨
    compress_image name env = skip_outcome env ∨
    (∃ tmp, env.encodeResult = some tmp ∧ tmp.length < env.original.length ∧
      compress_image name env =
        { result := true, raised := false, errorPrinted := false,
          file := tmp, tempExists := false, addedCompressed := tmp.length }) ∨
    (∃ tmp, env.encodeResult = some tmp ∧ env.original.length ≤ tmp.length ∧
      compress_image name env =
        { result := true, raised := false, errorPrinted := false,
          file := env.original, tempExists := false,
          addedCompressed := env.original.length }) := by
  unfold compress_image
  by_cases h1 : env.statOk = false
  · rw [if_pos h1]; exact Or.inl rfl
  rw [if_neg h1]
  by_cases h2 : env.openOk = false
  · rw [if_pos h2]; exact Or.inl rfl
  rw [if_neg h2]
  by_cases h3 : (needs_flatten env.mode && !env.convertOk) = true
  · rw [if_pos h3]; exact Or.inl rfl
  rw [if_neg h3]
  dsimp only
  cases hec : encoder_choice (get_extension name) with
  | none => exact Or.inr (Or.inl rfl)
  | some fmt =>
    cases henc : env.encodeResult with
    | none => exact Or.inl rfl
    | some tmp =>
      dsimp only
      by_cases h4 : env.statTmpOk = false
      · rw [if_pos h4]; exact Or.inl rfl
      rw [if_neg h4]
      by_cases h5 : tmp.length < env.original.length
      · rw [if_pos h5]
        by_cases h6 : env.moveOk = false
        · rw [if_pos h6]; exact Or.inl rfl
        · rw [if_neg h6]
          exact Or.inr (Or.inr (Or.inl ⟨tmp, rfl, h5, rfl⟩))
      · rw [if_neg h5]
        exact Or.inr (Or.inr (Or.inr ⟨tmp, rfl, by omega, rfl⟩))

theorem compress_image_skip (name : List Char) (env : Env)
    (h1 : env.statOk = true) (h2 : env.openOk = true)
    (h3 : needs_flatten env.mode = true → env.convertOk = true)
    (henc : encoder_choice (get_extension name) = none) :
    compress_image name env = skip_outcome env := by
  have h3' : (needs_flatten env.mode && !env.convertOk) = false := by
    cases hm : needs_flatten env.mode with
    | false => simp
    | true => simp [h3 hm]
  unfold compress_image
  rw [if_neg (by simp [h1]), if_neg (by simp [h2]), if_neg (by simp [h3'])]
  dsimp only
  rw [henc]

theorem addedCompressed_le (name : List Char) (env : Env) :
    (compress_image name env).addedCompressed ≤ env.original.length := by
  rcases compress_image_cases name env with h | h | ⟨tmp, _, hlt, h⟩ | ⟨tmp, _, hge, h⟩
  · rw [h]; exact Nat.zero_le _
  · rw [h]; exact Nat.zero_le _
  · rw [h]; exact hlt.le
  · rw [h]

theorem addedCompressed_zero_of_failure (name : List Char) (env : Env)
    (h : (compress_image name env).result = false) :
    (compress_image name env).addedCompressed = 0 := by
  rcases compress_image_cases name env with hc | hc | ⟨tmp, _, _, hc⟩ | ⟨tmp, _, _, hc⟩
  · rw [hc]; rfl
  · rw [hc]; rfl
  · rw [hc] at h; exact Bool.noConfusion h
  · rw [hc] at h; exact Bool.noConfusion h

theorem process_file_step_original_size (s : Stats) (f : List Char × Env) :
    (process_file_step s f).original_size = s.original_size + f.2.original.length := by
  unfold process_file_step
  by_cases h : (compress_image f.1 f.2).result = true
  · rw [if_pos h]
  · rw [if_neg h]

theorem process_file_step_total_files (s : Stats) (f : List Char × Env) :
    (process_file_step s f).total_files = s.total_files := by
  unfold process_file_step
  by_cases h : (compress_image f.1 f.2).result = true
  · rw [if_pos h]
  · rw [if_neg h]

theorem process_file_step_compressed_size_le (s : Stats) (f : List Char × Env) :
    (process_file_step s f).compressed_size ≤
      s.compressed_size + f.2.original.length := by
  unfold process_file_step
  by_cases h : (compress_image f.1 f.2).result = true
  · rw [if_pos h]
    show s.compressed_size + (compress_image f.1 f.2).addedCompressed ≤
      s.compressed_size + f.2.original.length
    exact Nat.add_le_add_left (addedCompressed_le f.1 f.2) _
  · rw [if_neg h]
    show s.compressed_size ≤ s.compressed_size + f.2.original.length
    exact Nat.le_add_right _ _

theorem foldl_compressed_le_original (files : List (List Char × Env)) (s : Stats)
    (h : s.compressed_size ≤ s.original_size) :
    (files.foldl process_file_step s).compressed_size ≤
      (files.foldl process_file_step s).original_size := by
  induction files generalizing s with
  | nil => simpa using h
  | cons f fs ih =>
    apply ih
    calc (process_file_step s f).compressed_size
        ≤ s.compressed_size + f.2.original.length :=
          process_file_step_compressed_size_le s f
      _ ≤ s.original_size + f.2.original.length := Nat.add_le_add_right h _
      _ = (process_file_step s f).original_size :=
          (process_file_step_original_size s f).symm

theorem foldl_total_files (files : List (List Char × Env)) (s : Stats) :
    (files.foldl process_file_step s).total_files = s.total_files := by
  induction files generalizing s with
  | nil => rfl
  | cons f fs ih => rw [List.foldl_cons, ih, process_file_step_total_files]

theorem get_extension_no_compound (name : List Char)
    (h1 : (".jpg.avif".toList).isSuffixOf (lowerL name) = false)
    (h2 : (".jpg.webp".toList).isSuffixOf (lowerL name) = false)
    (h3 : (".png.webp".toList).isSuffixOf (lowerL name) = false)
    (h4 : (".png.avif".toList).isSuffixOf (lowerL name) = false) :
    get_extension name = pySuffix (lowerL name) := by
  have hc1 : (".jpg.avif".toList.isSuffixOf (lowerL name) ||
      ".jpg.webp".toList.isSuffixOf (lowerL name)) = false := by rw [h1, h2]; rfl
  have hc2 : (".png.webp".toList.isSuffixOf (lowerL name) ||
      ".png.avif".toList.isSuffixOf (lowerL name)) = false := by rw [h3, h4]; rfl
  unfold get_extension
  rw [if_neg (by rw [hc1]; exact fun hx => Bool.noConfusion hx),
    if_neg (by rw [hc2]; exact fun hx => Bool.noConfusion hx)]

theorem process_file_step_failed_of_failure (s : Stats) (f : List Char × Env)
    (h : (compress_image f.1 f.2).result = false) :
    (process_file_step s f).failed = s.failed + 1 := by
  unfold process_file_step
  rw [if_neg (by simp [h])]

theorem process_file_step_compressed_of_failure (s : Stats) (f : List Char × Env)
    (h : (compress_image f.1 f.2).result = false) :
    (process_file_step s f).compressed = s.compressed ∧
      (process_file_step s f).compressed_size = s.compressed_size := by
  unfold process_file_step
  rw [if_neg (by simp [h])]
  exact ⟨rfl, rfl⟩

/-! Concrete environments used by the witnesses. -/

/-- A benign environment: a two-byte file, every external call succeeds,
the encoder writes a one-byte temporary. -/
def env_small : Env :=
  { original := [0, 0], statOk := true, openOk := true, mode := PILMode.RGB,
    convertOk := true, encodeResult := some [0], statTmpOk := true,
    moveOk := true }

/-- Like `env_small` but `os.path.getsize` raises. -/
def env_raise : Env := { env_small with statOk := false }

/-- Like `env_small` but the original file is empty (0 bytes). -/
def env_zero : Env := { env_small with original := [] }

/-! The claims. -/

/-- C1: for every candidate file whose logical extension is supported and
whose processing raises no exception, `compress_image` leaves the file
either replaced by the strictly smaller re-encoded temporary, or
byte-identical to the original (the temporary discarded); the two cases
exclude each other, the file is never left larger than it started, and no
temporary file remains. -/
theorem c1_compress_size_dichotomy (name : List Char) (env : Env)
    (_hsup : is_image name = true)
    (hok : (compress_image name env).raised = false) :
    ((∃ tmp, env.encodeResult = some tmp ∧ tmp.length < env.original.length ∧
        (compress_image name env).file = tmp ∧
        (compress_image name env).result = true) ∨
      (compress_image name env).file = env.original) ∧
    ((∃ tmp, env.encodeResult = some tmp ∧ tmp.length < env.original.length ∧
        (compress_image name env).file = tmp ∧
        (compress_image name env).result = true) →
      (compress_image name env).file ≠ env.original) ∧
    (compress_image name env).file.length ≤ env.original.length ∧
    (compress_image name env).tempExists = false := by
  rcases compress_image_cases name env with hc | hc |
    ⟨tmp, henc, hlt, hc⟩ | ⟨tmp, henc, hge, hc⟩
  · rw [hc] at hok; exact Bool.noConfusion hok
  · rw [hc]
    refine ⟨Or.inr rfl, ?_, le_refl _, rfl⟩
    rintro ⟨t, -, hlt, hfile, -⟩ -
    have ht : t = env.original := hfile.symm
    rw [ht] at hlt
    exact lt_irrefl _ hlt
  · rw [hc]
    refine ⟨Or.inl ⟨tmp, henc, hlt, rfl, rfl⟩, ?_, hlt.le, rfl⟩
    rintro - hfe
    have ht : tmp = env.original := hfe
    rw [ht] at hlt
    exact lt_irrefl _ hlt
  · rw [hc]
    refine ⟨Or.inr rfl, ?_, le_refl _, rfl⟩
    rintro ⟨t, henc2, hlt2, -, -⟩ -
    rw [henc] at henc2
    cases Option.some.inj henc2
    omega

/-- C1 witness: a two-byte `a.jpg` whose encoder output is one byte is
replaced by that smaller output. -/
theorem c1_compress_size_dichotomy_witness :
    (compress_image ("a.jpg".toList) env_small).file.length ≤
      env_small.original.length ∧
    (compress_image ("a.jpg".toList) env_small).file = [0] :=
  ⟨(c1_compress_size_dichotomy ("a.jpg".toList) env_small (by decide)
      (by decide)).2.2.1, by decide⟩

/-- C2: over any run of `process_folder` the accumulated `compressed_size`
never exceeds the accumulated `original_size`; per processed file the
original size is added to `original_size` while `compressed_size` grows by
at most that much, and a failed file adds nothing to `compressed_size`. -/
theorem c2_compressed_never_exceeds_original :
    (∀ fo : Folder,
      (process_folder fo).stats.compressed_size ≤
        (process_folder fo).stats.original_size) ∧
    (∀ (s : Stats) (f : List Char × Env),
      (process_file_step s f).original_size =
        s.original_size + f.2.original.length) ∧
    (∀ (s : Stats) (f : List Char × Env),
      (process_file_step s f).compressed_size ≤
        s.compressed_size + f.2.original.length) ∧
    (∀ (name : List Char) (env : Env),
      (compress_image name env).result = false →
        (compress_image name env).addedCompressed = 0) := by
  refine ⟨?_, process_file_step_original_size,
    process_file_step_compressed_size_le, addedCompressed_zero_of_failure⟩
  intro fo
  unfold process_folder
  by_cases h1 : fo.path_exists = false
  · rw [if_pos h1]; exact Nat.le_refl _
  · rw [if_neg h1]
    dsimp only
    by_cases h2 : (fo.files.filter fun f => is_image f.1) = []
    · rw [if_pos h2]; exact Nat.le_refl _
    · rw [if_neg h2]
      exact foldl_compressed_le_original _ _ (Nat.le_refl 0)

/-- C2 witness: a failing file (the size call raises) adds nothing to the
compressed-size accumulator. -/
theorem c2_compressed_never_exceeds_original_witness :
    (compress_image ("a.jpg".toList) env_raise).result = false ∧
    (compress_image ("a.jpg".toList) env_raise).addedCompressed = 0 :=
  ⟨by decide, c2_compressed_never_exceeds_original.2.2.2 ("a.jpg".toList)
    env_raise (by decide)⟩

/-- C5: an exception at any step inside the `try` block of `compress_image`
is caught there and never propagates: the error line naming the file is
printed, no temporary file remains, the original bytes are untouched,
nothing is added to `compressed_size`, `False` is returned and the caller
increments the failure counter. -/
theorem c5_exception_swallowed (name : List Char) (env : Env) (s : Stats)
    (h : (compress_image name env).raised = true) :
    (compress_image name env).result = false ∧
    (compress_image name env).errorPrinted = true ∧
    (compress_image name env).file = env.original ∧
    (compress_image name env).tempExists = false ∧
    (compress_image name env).addedCompressed = 0 ∧
    (process_file_step s (name, env)).failed = s.failed + 1 := by
  rcases compress_image_cases name env with hc | hc |
    ⟨t, -, -, hc⟩ | ⟨t, -, -, hc⟩
  · have hres : (compress_image name env).result = false := by rw [hc]; rfl
    exact ⟨hres, by rw [hc]; rfl, by rw [hc]; rfl, by rw [hc]; rfl,
      by rw [hc]; rfl, process_file_step_failed_of_failure s (name, env) hres⟩
  · rw [hc] at h; exact Bool.noConfusion h
  · rw [hc] at h; exact Bool.noConfusion h
  · rw [hc] at h; exact Bool.noConfusion h

/-- C5 witness: when `os.path.getsize` raises, the call reports failure and
the failure counter goes from 0 to 1. -/
theorem c5_exception_swallowed_witness :
    (compress_image ("a.jpg".toList) env_raise).result = false ∧
    (process_file_step init_stats ("a.jpg".toList, env_raise)).failed = 1 :=
  ⟨(c5_exception_swallowed ("a.jpg".toList) env_raise init_stats
      (by decide)).1,
    (c5_exception_swallowed ("a.jpg".toList) env_raise init_stats
      (by decide)).2.2.2.2.2⟩

/-- C9: the per-file percentage reduction is `(1 - new/original) * 100`
with no guard for `original = 0`: whenever `compress_image` reports success
on a file recorded with 0 bytes, the reporting line divides by zero
(modelled as `none`). -/
theorem c9_reduction_division_by_zero :
    (∀ new_size original_size : Nat, original_size ≠ 0 →
      reduction_percent new_size original_size =
        some ((1 - (new_size : ℚ) / (original_size : ℚ)) * 100)) ∧
    (∀ (name : List Char) (env : Env),
      env.original.length = 0 → (compress_image name env).result = true →
        reduction_percent ((compress_image name env).file.length)
          env.original.length = none) := by
  constructor
  · intro a b hb
    unfold reduction_percent
    rw [if_neg hb]
  · intro name env h0 _hres
    unfold reduction_percent
    rw [h0, if_pos rfl]

/-- C9 witness: on an empty (0-byte) `a.jpg` the run succeeds (the
temporary cannot be smaller, so the original size 0 is kept) and the
report computation hits the zero denominator. -/
theorem c9_reduction_division_by_zero_witness :
    (compress_image ("a.jpg".toList) env_zero).result = true ∧
    reduction_percent ((compress_image ("a.jpg".toList) env_zero).file.length)
      env_zero.original.length = none ∧
    reduction_percent 2 4 = some ((1 - (2 : ℚ) / (4 : ℚ)) * 100) :=
  ⟨by decide,
    c9_reduction_division_by_zero.2 ("a.jpg".toList) env_zero rfl (by decide),
    c9_reduction_division_by_zero.1 2 4 (by decide)⟩

/-- C3 counterexample: "a.png.webp" ends with the compound suffix
".png.webp", but its logical extension is the 8-character tail "png.webp"
(without the leading dot), not the compound form ".png.webp" the claim
states. -/
theorem c3_counterexample :
    (".png.webp".toList).isSuffixOf (lowerL ("a.png.webp".toList)) = true ∧
    get_extension ("a.png.webp".toList) ≠ ".png.webp".toList ∧
    get_extension ("a.png.webp".toList) = "png.webp".toList ∧
    is_image ("a.png.webp".toList) = false := by decide

/-- C3 (amended): a file is a candidate iff its logical extension is in the
supported set; a name ending in `.jpg.avif`/`.jpg.webp` is classified as that
compound form, while one ending in `.png.webp`/`.png.avif` is classified as
the 8-character tail `png.webp`/`png.avif` without its leading dot; none of
the four results is in the supported set, so compound-suffix files are never
candidates. -/
theorem c3_candidate_iff_supported :
    (∀ name, is_image name = true ↔ get_extension name ∈ supported_formats) ∧
    (∀ name, (".jpg.avif".toList).isSuffixOf (lowerL name) = true →
      get_extension name = ".jpg.avif".toList ∧ is_image name = false) ∧
    (∀ name, (".jpg.webp".toList).isSuffixOf (lowerL name) = true →
      get_extension name = ".jpg.webp".toList ∧ is_image name = false) ∧
    (∀ name, (".png.webp".toList).isSuffixOf (lowerL name) = true →
      get_extension name = "png.webp".toList ∧ is_image name = false) ∧
    (∀ name, (".png.avif".toList).isSuffixOf (lowerL name) = true →
      get_extension name = "png.avif".toList ∧ is_image name = false) := by
  refine ⟨?_, ?_, ?_, ?_, ?_⟩
  · intro name
    unfold is_image
    simp
  · intro name h
    have hg := get_extension_of_sfx_jpg_avif name h
    refine ⟨hg, ?_⟩
    unfold is_image
    rw [hg]
    decide
  · intro name h
    have hg := get_extension_of_sfx_jpg_webp name h
    refine ⟨hg, ?_⟩
    unfold is_image
    rw [hg]
    decide
  · intro name h
    have hg := get_extension_of_sfx_png_webp name h
    refine ⟨hg, ?_⟩
    unfold is_image
    rw [hg]
    decide
  · intro name h
    have hg := get_extension_of_sfx_png_avif name h
    refine ⟨hg, ?_⟩
    unfold is_image
    rw [hg]
    decide

/-- C3 witness: "a.jpg.avif" is classified as ".jpg.avif" and is not a
candidate. -/
theorem c3_candidate_iff_supported_witness :
    get_extension ("a.jpg.avif".toList) = ".jpg.avif".toList ∧
    is_image ("a.jpg.avif".toList) = false :=
  c3_candidate_iff_supported.2.1 ("a.jpg.avif".toList) (by decide)

/-- C4: a file whose lowercased name is `stem ++ ".avif"` with a nonempty
stem that does not end in ".jpg" or ".png" is selected as a candidate
(`is_image` is true), but the encoder chain of `compress_image` has no
branch for the logical extension ".avif": the call returns `False` before
any temporary file is written, the original is untouched, and
`process_folder` counts the file as failed. -/
theorem c4_plain_avif_always_fails (name stem : List Char) (env : Env)
    (s : Stats)
    (hname : lowerL name = stem ++ ".avif".toList)
    (hstem : stem ≠ [])
    (hjpg : (".jpg".toList).isSuffixOf stem = false)
    (hpng : (".png".toList).isSuffixOf stem = false)
    (h1 : env.statOk = true) (h2 : env.openOk = true)
    (h3 : needs_flatten env.mode = true → env.convertOk = true) :
    get_extension name = ".avif".toList ∧
    is_image name = true ∧
    compress_image name env = skip_outcome env ∧
    (compress_image name env).result = false ∧
    (compress_image name env).tempExists = false ∧
    (compress_image name env).file = env.original ∧
    (process_file_step s (name, env)).failed = s.failed + 1 := by
  have havif : (".avif".toList).isSuffixOf (lowerL name) = true := by
    rw [hname]
    exact List.isSuffixOf_iff_suffix.mpr ⟨stem, rfl⟩
  have hjw : (".jpg.webp".toList).isSuffixOf (lowerL name) = false :=
    suffix_clash (".avif".toList) (".jpg.webp".toList) _ (by decide) (by decide)
      havif
  have hpw : (".png.webp".toList).isSuffixOf (lowerL name) = false :=
    suffix_clash (".avif".toList) (".png.webp".toList) _ (by decide) (by decide)
      havif
  have hja : (".jpg.avif".toList).isSuffixOf (lowerL name) = false := by
    cases hcase : (".jpg.avif".toList).isSuffixOf (lowerL name) with
    | false => rfl
    | true =>
      rw [hname, show (".jpg.avif".toList) = ".jpg".toList ++ ".avif".toList
        from rfl] at hcase
      rw [suffix_append_cancel _ _ _ hcase] at hjpg
      exact Bool.noConfusion hjpg
  have hpa : (".png.avif".toList).isSuffixOf (lowerL name) = false := by
    cases hcase : (".png.avif".toList).isSuffixOf (lowerL name) with
    | false => rfl
    | true =>
      rw [hname, show (".png.avif".toList) = ".png".toList ++ ".avif".toList
        from rfl] at hcase
      rw [suffix_append_cancel _ _ _ hcase] at hpng
      exact Bool.noConfusion hpng
  have hget : get_extension name = ".avif".toList := by
    rw [get_extension_no_compound name hja hjw hpw hpa, hname,
      show (".avif".toList) = '.' :: "avif".toList from rfl,
      pySuffix_append stem ("avif".toList) hstem (by decide) (by decide)]
  have himg : is_image name = true := by
    unfold is_image
    rw [hget]
    decide
  have hskip : compress_image name env = skip_outcome env := by
    apply compress_image_skip name env h1 h2 h3
    rw [hget]
    decide
  have hres : (compress_image name env).result = false := by rw [hskip]; rfl
  exact ⟨hget, himg, hskip, hres, by rw [hskip]; rfl, by rw [hskip]; rfl,
    process_file_step_failed_of_failure s (name, env) hres⟩

/-- C4 witness: "a.avif" is a candidate, yet its compression is skipped and
counted as a failure. -/
theorem c4_plain_avif_always_fails_witness :
    is_image ("a.avif".toList) = true ∧
    compress_image ("a.avif".toList) env_small = skip_outcome env_small ∧
    (process_file_step init_stats ("a.avif".toList, env_small)).failed = 1 := by
  have h := c4_plain_avif_always_fails ("a.avif".toList) (['a']) env_small
    init_stats (by decide) (by decide) (by decide) (by decide) rfl rfl
    (by decide)
  exact ⟨h.2.1, h.2.2.1, h.2.2.2.2.2.2⟩

/-- C6 counterexample: the unsupported-extension skip of "a.avif" returns
`False`, and `process_folder` increments the failure counter for it — the
claim that the skip is not counted as an error is false. -/
theorem c6_counterexample :
    compress_image ("a.avif".toList) env_small = skip_outcome env_small ∧
    (compress_image ("a.avif".toList) env_small).result = false ∧
    (process_file_step init_stats ("a.avif".toList, env_small)).failed = 1 ∧
    init_stats.failed = 0 := by decide

/-- C6 (amended): on a logical extension with no encoder branch,
`compress_image` returns `False` without raising, without printing an error
line of its own and without writing a temporary file; but the boolean
result is the same as a genuine failure, so `process_folder` cannot
distinguish the skip and counts it in the failure counter. -/
theorem c6_unsupported_skip_counted_failed (name : List Char) (env : Env)
    (s : Stats)
    (h1 : env.statOk = true) (h2 : env.openOk = true)
    (h3 : needs_flatten env.mode = true → env.convertOk = true)
    (henc : encoder_choice (get_extension name) = none) :
    compress_image name env = skip_outcome env ∧
    (compress_image name env).result = false ∧
    (compress_image name env).raised = false ∧
    (compress_image name env).errorPrinted = false ∧
    (compress_image name env).tempExists = false ∧
    (process_file_step s (name, env)).failed = s.failed + 1 ∧
    (process_file_step s (name, env)).compressed = s.compressed := by
  have hskip := compress_image_skip name env h1 h2 h3 henc
  have hres : (compress_image name env).result = false := by rw [hskip]; rfl
  exact ⟨hskip, hres, by rw [hskip]; rfl, by rw [hskip]; rfl,
    by rw [hskip]; rfl,
    process_file_step_failed_of_failure s (name, env) hres,
    (process_file_step_compressed_of_failure s (name, env) hres).1⟩

/-- C6 amended-claim witness: the skip of "b.avif" is counted as a
failure. -/
theorem c6_unsupported_skip_counted_failed_witness :
    compress_image ("b.avif".toList) env_small = skip_outcome env_small ∧
    (process_file_step init_stats ("b.avif".toList, env_small)).failed = 1 := by
  have h := c6_unsupported_skip_counted_failed ("b.avif".toList) env_small
    init_stats rfl rfl (by decide) (by decide)
  exact ⟨h.1, h.2.2.2.2.2.1⟩

/-- C7: the logical extension is the last 9 characters when the lowercased
name ends in ".jpg.avif"/".jpg.webp", else the last 8 characters when it
ends in ".png.webp"/".png.avif", else the lowercased `Path.suffix`; with
the four stated examples. -/
theorem c7_get_extension_rule :
    (∀ name, ((".jpg.avif".toList).isSuffixOf (lowerL name) = true ∨
        (".jpg.webp".toList).isSuffixOf (lowerL name) = true) →
      get_extension name = (lowerL name).drop ((lowerL name).length - 9)) ∧
    (∀ name, (".jpg.avif".toList).isSuffixOf (lowerL name) = false →
      (".jpg.webp".toList).isSuffixOf (lowerL name) = false →
      ((".png.webp".toList).isSuffixOf (lowerL name) = true ∨
        (".png.avif".toList).isSuffixOf (lowerL name) = true) →
      get_extension name = (lowerL name).drop ((lowerL name).length - 8)) ∧
    (∀ name, (".jpg.avif".toList).isSuffixOf (lowerL name) = false →
      (".jpg.webp".toList).isSuffixOf (lowerL name) = false →
      (".png.webp".toList).isSuffixOf (lowerL name) = false →
      (".png.avif".toList).isSuffixOf (lowerL name) = false →
      get_extension name = pySuffix (lowerL name)) ∧
    get_extension ("photo.jpg".toList) = ".jpg".toList ∧
    get_extension ("photo.jpg.avif".toList) = ".jpg.avif".toList ∧
    get_extension ("icon.PNG".toList) = ".png".toList ∧
    get_extension ("archive.tar.gz".toList) = ".gz".toList := by
  refine ⟨?_, ?_, get_extension_no_compound, by decide, by decide, by decide,
    by decide⟩
  · intro name h
    have hcond : (".jpg.avif".toList.isSuffixOf (lowerL name) ||
        ".jpg.webp".toList.isSuffixOf (lowerL name)) = true := by
      rcases h with h | h
      · rw [h]; rfl
      · rw [h, Bool.or_true]
    unfold get_extension
    rw [if_pos hcond]
  · intro name h1 h2 h
    have hc1 : (".jpg.avif".toList.isSuffixOf (lowerL name) ||
        ".jpg.webp".toList.isSuffixOf (lowerL name)) = false := by
      rw [h1, h2]; rfl
    have hcond : (".png.webp".toList.isSuffixOf (lowerL name) ||
        ".png.avif".toList.isSuffixOf (lowerL name)) = true := by
      rcases h with h | h
      · rw [h]; rfl
      · rw [h, Bool.or_true]
    unfold get_extension
    rw [if_neg (by rw [hc1]; exact fun hx => Bool.noConfusion hx),
      if_pos hcond]

/-- C7 witness: the three branch rules applied at "photo.jpg.avif",
"x.png.avif" and "archive.tar.gz". -/
theorem c7_get_extension_rule_witness :
    get_extension ("photo.jpg.avif".toList) =
      (lowerL ("photo.jpg.avif".toList)).drop
        ((lowerL ("photo.jpg.avif".toList)).length - 9) ∧
    get_extension ("x.png.avif".toList) =
      (lowerL ("x.png.avif".toList)).drop
        ((lowerL ("x.png.avif".toList)).length - 8) ∧
    get_extension ("archive.tar.gz".toList) =
      pySuffix (lowerL ("archive.tar.gz".toList)) :=
  ⟨c7_get_extension_rule.1 ("photo.jpg.avif".toList) (Or.inl (by decide)),
    c7_get_extension_rule.2.1 ("x.png.avif".toList) (by decide) (by decide)
      (Or.inr (by decide)),
    c7_get_extension_rule.2.2.1 ("archive.tar.gz".toList) (by decide)
      (by decide) (by decide) (by decide)⟩

/-- C8: `process_folder` returns `False` exactly when the root path does
not exist or the scan finds zero candidates; the first case prints the
missing-directory message and the second the no-images message, both leave
every file untouched with the initial statistics, and the script's process
exits 0; otherwise it returns `True` with every candidate scheduled
(`total_files` is the candidate count). -/
theorem c8_process_folder_preconditions (fo : Folder) :
    ((process_folder fo).returned = false ↔
      (fo.path_exists = false ∨
        fo.files.filter (fun f => is_image f.1) = [])) ∧
    ((process_folder fo).returned = false →
      (process_folder fo).disk = untouched_disk fo ∧
      (process_folder fo).stats = init_stats) ∧
    (fo.path_exists = false →
      (process_folder fo).abort = some AbortMsg.dirMissing) ∧
    (fo.path_exists = true →
      fo.files.filter (fun f => is_image f.1) = [] →
      (process_folder fo).abort = some AbortMsg.noImages) ∧
    ((process_folder fo).returned = true →
      (process_folder fo).abort = none ∧
      (process_folder fo).stats.total_files =
        (fo.files.filter (fun f => is_image f.1)).length) ∧
    script_exit_code fo = 0 := by
  have hexit : script_exit_code fo = 0 := rfl
  by_cases h1 : fo.path_exists = false
  · unfold process_folder
    rw [if_pos h1]
    refine ⟨⟨fun _ => Or.inl h1, fun _ => rfl⟩, fun _ => ⟨rfl, rfl⟩,
      fun _ => rfl, ?_, fun hret => Bool.noConfusion hret, hexit⟩
    intro hpe
    rw [h1] at hpe
    exact Bool.noConfusion hpe
  · unfold process_folder
    rw [if_neg h1]
    dsimp only
    by_cases h2 : (fo.files.filter fun f => is_image f.1) = []
    · rw [if_pos h2]
      exact ⟨⟨fun _ => Or.inr h2, fun _ => rfl⟩, fun _ => ⟨rfl, rfl⟩,
        fun hpe => absurd hpe h1, fun _ _ => rfl,
        fun hret => Bool.noConfusion hret, hexit⟩
    · rw [if_neg h2]
      refine ⟨⟨fun hret => Bool.noConfusion hret, ?_⟩,
        fun hret => Bool.noConfusion hret, fun hpe => absurd hpe h1,
        fun _ hf => absurd hf h2, fun _ => ⟨rfl, ?_⟩, hexit⟩
      · rintro (hpe | hf)
        · exact absurd hpe h1
        · exact absurd hf h2
      · rw [foldl_total_files]

/-- C8 witness: a missing root directory yields `False`, the
missing-directory message, and exit status 0. -/
theorem c8_process_folder_preconditions_witness :
    (process_folder (Folder.mk false [])).returned = false ∧
    (process_folder (Folder.mk false [])).abort = some AbortMsg.dirMissing ∧
    script_exit_code (Folder.mk false []) = 0 :=
  ⟨(c8_process_folder_preconditions (Folder.mk false [])).1.mpr (Or.inl rfl),
    (c8_process_folder_preconditions (Folder.mk false [])).2.2.1 rfl,
    (c8_process_folder_preconditions (Folder.mk false [])).2.2.2.2.2⟩

/-- Unfolding of one loop iteration of `format_size`. -/
theorem format_size_loop_cons (u : List Char) (us : List (List Char))
    (num den : Nat) :
    format_size_loop (u :: us) num den =
      if num < 1024 * den then format_two_dec num den ++ [' '] ++ u
      else format_size_loop us num (den * 1024) := rfl

/-- C10: `format_size` scales through B/KB/MB/GB/TB by repeated division by
1024, formatting the first value below 1024 with two decimals and falling
through to TB, and maps 0, 1536 and 1073741824 to the stated strings. -/
theorem c10_format_size_rule :
    (∀ n : Nat, n < 1024 →
      format_size n = format_two_dec n 1 ++ " B".toList) ∧
    (∀ n : Nat, 1024 ≤ n → n < 1024 ^ 2 →
      format_size n = format_two_dec n 1024 ++ " KB".toList) ∧
    (∀ n : Nat, 1024 ^ 2 ≤ n → n < 1024 ^ 3 →
      format_size n = format_two_dec n (1024 ^ 2) ++ " MB".toList) ∧
    (∀ n : Nat, 1024 ^ 3 ≤ n → n < 1024 ^ 4 →
      format_size n = format_two_dec n (1024 ^ 3) ++ " GB".toList) ∧
    (∀ n : Nat, 1024 ^ 4 ≤ n →
      format_size n = format_two_dec n (1024 ^ 4) ++ " TB".toList) ∧
    format_size 0 = "0.00 B".toList ∧
    format_size 1536 = "1.50 KB".toList ∧
    format_size 1073741824 = "1.00 GB".toList := by
  have e2 : (1024 : Nat) ^ 2 = 1048576 := by norm_num
  have e3 : (1024 : Nat) ^ 3 = 1073741824 := by norm_num
  have e4 : (1024 : Nat) ^ 4 = 1099511627776 := by norm_num
  refine ⟨?_, ?_, ?_, ?_, ?_, by decide, by decide, by decide⟩
  · intro n h
    unfold format_size
    rw [format_size_loop_cons, if_pos (by omega), List.append_assoc]
    congr 1
  · intro n h1 h2
    rw [e2] at h2
    unfold format_size
    rw [format_size_loop_cons, if_neg (by omega), format_size_loop_cons,
      if_pos (by omega)]
    have hden : 1 * 1024 = 1024 := by norm_num
    rw [hden, List.append_assoc]
    congr 1
  · intro n h1 h2
    rw [e2] at h1
    rw [e3] at h2
    unfold format_size
    rw [format_size_loop_cons, if_neg (by omega), format_size_loop_cons,
      if_neg (by omega), format_size_loop_cons, if_pos (by omega)]
    have hden : 1 * 1024 * 1024 = 1024 ^ 2 := by norm_num
    rw [hden, List.append_assoc]
    congr 1
  · intro n h1 h2
    rw [e3] at h1
    rw [e4] at h2
    unfold format_size
    rw [format_size_loop_cons, if_neg (by omega), format_size_loop_cons,
      if_neg (by omega), format_size_loop_cons, if_neg (by omega),
      format_size_loop_cons, if_pos (by omega)]
    have hden : 1 * 1024 * 1024 * 1024 = 1024 ^ 3 := by norm_num
    rw [hden, List.append_assoc]
    congr 1
  · intro n h1
    rw [e4] at h1
    unfold format_size
    rw [format_size_loop_cons, if_neg (by omega), format_size_loop_cons,
      if_neg (by omega), format_size_loop_cons, if_neg (by omega),
      format_size_loop_cons, if_neg (by omega)]
    have hden : 1 * 1024 * 1024 * 1024 * 1024 = 1024 ^ 4 := by norm_num
    rw [show format_size_loop [] n (1 * 1024 * 1024 * 1024 * 1024) =
      format_two_dec n (1 * 1024 * 1024 * 1024 * 1024) ++ " TB".toList
      from rfl, hden]

/-- C10 witness: the KB rule applied at 2048, and the TB fall-through at
`1024 ^ 4`. -/
theorem c10_format_size_rule_witness :
    format_size 2048 = format_two_dec 2048 1024 ++ " KB".toList ∧
    format_size 1099511627776 =
      format_two_dec 1099511627776 (1024 ^ 4) ++ " TB".toList :=
  ⟨c10_format_size_rule.2.1 2048 (by norm_num) (by norm_num),
    c10_format_size_rule.2.2.2.2.1 1099511627776 (by norm_num)⟩

end ImageComp
